import Mathlib

/-!
Verification of the core behaviors of the DoorDash order-scheduler repository
(trigger engine in `js/models.js` / `js/scheduler.js`, automation engine in
`server/puppeteer/autoorder.js`, HTTP boundary in `server/server.js`, history
recording in `js/doordash.js`).

The JavaScript sources are shallowly embedded:
* strings are `String` / `List Char` (the inputs of interest are ASCII, so the
  ASCII `Char.toLower` / `Char.isAlphanum` agree with the JavaScript
  `toLowerCase` / `\w` behavior);
* millisecond timestamps are `Int`; calendar arithmetic uses uniform
  86 400 000 ms days with day index `t / 86400000` and weekday
  `dayIndex % 7` under the convention that day 0 is a Sunday (matching the
  `getDay` numbering `0 = Sunday .. 6 = Saturday`); daylight-saving shifts are
  outside the model, as in the specification, which leaves them unspecified;
* nullable fields become `Option`; JavaScript falsiness of `0`, `null` and
  `""` is reproduced explicitly at each use site;
* browser/puppeteer side effects (which item resolutions succeed, whether the
  automation run throws) are oracle parameters of the embedded functions.
-/

namespace AutomationFood

/-! ## FuzzyMatcher (`server/puppeteer/autoorder.js`, `fuzzyMatch`) -/

/-- Whitespace class of the JavaScript regexes `\s` / `String.prototype.trim`
(ASCII subset, which covers the strings this code ever sees). -/
def isSpaceJS (c : Char) : Bool :=
  c == ' ' || c == '\t' || c == '\n' || c == '\r'

/-- Characters kept by the `replace(/[^\w\s]/g, '')` step of `normalize`:
JavaScript `\w` is `[A-Za-z0-9_]` (note that it keeps the underscore) and
`\s` is whitespace. -/
def isWordOrSpaceJS (c : Char) : Bool :=
  c.isAlphanum || c == '_' || isSpaceJS c

/-- `String.prototype.trim`: drop whitespace from both ends. -/
def trimJS (l : List Char) : List Char :=
  ((l.dropWhile isSpaceJS).reverse.dropWhile isSpaceJS).reverse

/-- `replace(/\s+/g, ' ')`: every maximal run of whitespace becomes one
space. -/
def collapseWs : List Char → List Char
  | [] => []
  | c :: rest =>
    let t := collapseWs rest
    if isSpaceJS c then
      match t with
      | d :: t2 => if d == ' ' then ' ' :: t2 else ' ' :: t
      | [] => [' ']
    else c :: t

/-- The `normalize` closure of `fuzzyMatch`:
`str.toLowerCase().trim().replace(/[^\w\s]/g, '').replace(/\s+/g, ' ')`. -/
def normalizeL (l : List Char) : List Char :=
  collapseWs ((trimJS (l.map Char.toLower)).filter isWordOrSpaceJS)

/-- `normalize` on `String`s. -/
def normalize (s : String) : String :=
  ⟨normalizeL s.data⟩

/-- Does the first list start with the second (prefix test)? -/
def startsWithL : List Char → List Char → Bool
  | _, [] => true
  | [], _ :: _ => false
  | a :: as, b :: bs => a == b && startsWithL as bs

/-- `String.prototype.includes`: the second list occurs contiguously inside
the first.  As in JavaScript, an empty needle is always found. -/
def hasSub : List Char → List Char → Bool
  | [], needle => needle.isEmpty
  | h :: t, needle => startsWithL (h :: t) needle || hasSub t needle

/-- `String.prototype.split(' ')`: split at every single space character,
keeping empty fragments (as JavaScript does). -/
def splitSp : List Char → List (List Char)
  | [] => [[]]
  | c :: rest =>
    if c == ' ' then [] :: splitSp rest
    else
      match splitSp rest with
      | [] => [[c]]
      | w :: ws => (c :: w) :: ws

/-- `fuzzyMatch(menuItemName, searchName)` from
`server/puppeteer/autoorder.js`.  The JavaScript threshold test
`matchCount >= searchWords.length * 0.7` is rendered as
`7 * searchWords.length ≤ 10 * matchCount`; for word counts below `2^49`
the IEEE-double product `searchWords.length * 0.7` is close enough to
`0.7 * n` that the two comparisons agree on every integer `matchCount`
(ties at exact multiples of ten round to the even integer `7n/10`). -/
def fuzzyMatch (menuItemName searchName : String) : Bool :=
  if menuItemName.isEmpty || searchName.isEmpty then false
  else
    let menuNorm := normalizeL menuItemName.data
    let searchNorm := normalizeL searchName.data
    if menuNorm == searchNorm then true
    else if hasSub menuNorm searchNorm || hasSub searchNorm menuNorm then true
    else
      let searchWords := (splitSp searchNorm).filter (fun w => decide (2 < w.length))
      let menuWords := splitSp menuNorm
      if 0 < searchWords.length then
        let matchCount := (searchWords.filter (fun sw =>
          menuWords.any (fun mw => hasSub mw sw || hasSub sw mw))).length
        decide (7 * searchWords.length ≤ 10 * matchCount)
      else false

/-- Query words longer than two characters, taken from the normalized query
(spec-side view of the word-overlap clause). -/
def longQueryWords (query : String) : List (List Char) :=
  (splitSp (normalizeL query.data)).filter (fun w => decide (2 < w.length))

/-- How many of the long query words overlap (substring containment in either
direction) with some word of the normalized candidate. -/
def overlapCount (candidate query : String) : Nat :=
  ((longQueryWords query).filter (fun sw =>
    (splitSp (normalizeL candidate.data)).any (fun mw =>
      hasSub mw sw || hasSub sw mw))).length

/-- Spec-side match predicate (the amended reading of the FuzzyMatcher
specification): both inputs non-empty, and the normalized strings are equal,
or one contains the other, or the query has at least one word longer than two
characters and at least 70 percent of those words overlap with some candidate
word. -/
def matchSpec (candidate query : String) : Prop :=
  candidate.isEmpty = false ∧ query.isEmpty = false ∧
    (normalizeL candidate.data = normalizeL query.data ∨
     hasSub (normalizeL candidate.data) (normalizeL query.data) = true ∨
     hasSub (normalizeL query.data) (normalizeL candidate.data) = true ∨
     (longQueryWords query ≠ [] ∧
      7 * (longQueryWords query).length ≤ 10 * overlapCount candidate query))

/-! ## TimingCalculator (`js/models.js`, `SchedulesModel.calculateNextTrigger`) -/

/-- Timing-relevant fields of a schedule, as passed to
`calculateNextTrigger` (`type`, `daysOfWeek`, `time`, `dateTime`,
`reminderMinutesBefore`).  `time` is the parsed `'HH:MM'` pair; `dateTime`
is a millisecond timestamp. -/
structure TimingData where
  type : String
  daysOfWeek : List Nat
  time : Option (Nat × Nat)
  dateTime : Option Int
  reminderMinutesBefore : Int
deriving DecidableEq

/-- Milliseconds per calendar day in the uniform-day model. -/
def msPerDay : Int := 86400000

/-- The weekday (`0 = Sunday .. 6 = Saturday`) of the `i`-th day counted from
the calendar day containing `now`. -/
def weekdayAt (now : Int) (i : Nat) : Nat :=
  ((now / msPerDay + (i : Int)) % 7).toNat

/-- The candidate trigger instant examined on the `i`-th day from today:
that day at `hh:mm` minus the reminder offset (`checkDate.setHours` followed
by `checkDate.getTime() - reminderOffset` in the source). -/
def candidateAt (now : Int) (hh mm : Nat) (off : Int) (i : Nat) : Int :=
  (now / msPerDay + (i : Int)) * msPerDay + (hh : Int) * 3600000 + (mm : Int) * 60000 - off

/-- The `for (let i = 0; i < 7; i++)` scan of the recurring branch of
`calculateNextTrigger`: starting at day offset `i` with `k` iterations left,
return the first candidate on a selected weekday that is strictly after
`now`.  (The source sorts `daysOfWeek` before the scan; sorting does not
change `includes`, so the sort is omitted.) -/
def recurringGo (days : List Nat) (hh mm : Nat) (off now : Int) : Nat → Nat → Option Int
  | _, 0 => none
  | i, k + 1 =>
    if days.contains (weekdayAt now i) then
      let triggerTime := candidateAt now hh mm off i
      if now < triggerTime then some triggerTime
      else recurringGo days hh mm off now (i + 1) k
    else recurringGo days hh mm off now (i + 1) k

/-- `SchedulesModel.calculateNextTrigger(data)` evaluated at the frozen
clock `now`.  `once`: candidate is `dateTime` minus the reminder offset,
returned only if strictly future.  `recurring`: scan the next seven calendar
days.  Any other `type` string yields `null`. -/
def calculateNextTrigger (data : TimingData) (now : Int) : Option Int :=
  let reminderOffset : Int := data.reminderMinutesBefore * 60000
  if data.type == "once" then
    match data.dateTime with
    | none => none
    | some dt =>
      let triggerTime := dt - reminderOffset
      if now < triggerTime then some triggerTime else none
  else if data.type == "recurring" then
    match data.time with
    | none => none
    | some (hh, mm) =>
      if data.daysOfWeek.isEmpty then none
      else recurringGo data.daysOfWeek hh mm reminderOffset now 0 7
  else none

/-! ## Schedules, due detection, snoozing
(`js/models.js` `SchedulesModel`, `js/scheduler.js` `Scheduler`) -/

/-- A stored schedule: the fields of the `schedule` objects of
`SchedulesModel` that the trigger engine reads or writes. -/
structure Schedule where
  id : String
  favoriteId : String
  enabled : Bool
  autoOpen : Bool
  timing : TimingData
  lastTriggeredAt : Option Int
  nextTriggerAt : Option Int
deriving DecidableEq

/-- The filter predicate of `SchedulesModel.getDueSchedules`: enabled,
non-null `nextTriggerAt`, trigger within the last 30 seconds, and not yet
triggered for that instant (a null `lastTriggeredAt` reads as `0`). -/
def dueFilter (now : Int) (s : Schedule) : Bool :=
  s.enabled &&
    match s.nextTriggerAt with
    | none => false
    | some triggerTime =>
      let lastTriggered := s.lastTriggeredAt.getD 0
      decide (triggerTime ≤ now) && decide (now - 30000 < triggerTime) &&
        decide (lastTriggered < triggerTime)

/-- `SchedulesModel.getDueSchedules()` at the frozen clock `now`. -/
def getDueSchedules (schedules : List Schedule) (now : Int) : List Schedule :=
  schedules.filter (dueFilter now)

/-- The in-memory `snoozedSchedules` map of the `Scheduler`, as an
association list (later `set`s shadow earlier entries). -/
abbrev SnoozeMap := List (String × Int)

/-- `Map.prototype.get`. -/
def snoozeGet (m : SnoozeMap) (id : String) : Option Int :=
  (m.find? (fun p => p.fst == id)).map Prod.snd

/-- `Map.prototype.set`. -/
def snoozeSet (m : SnoozeMap) (id : String) (v : Int) : SnoozeMap :=
  (id, v) :: m

/-- The snooze guard inside `Scheduler.checkSchedules`:
`snoozeEnd && Date.now() < snoozeEnd` (a stored `0` is falsy, as in
JavaScript). -/
def snoozeActive (m : SnoozeMap) (id : String) (now : Int) : Bool :=
  match snoozeGet m id with
  | none => false
  | some snoozeEnd => !(snoozeEnd == 0) && decide (now < snoozeEnd)

/-- The mutable state of the `Scheduler` relevant to firing: the persisted
schedules plus the transient snooze map. -/
structure SchedulerState where
  schedules : List Schedule
  snoozedSchedules : SnoozeMap
deriving DecidableEq

/-- `Scheduler.snooze(scheduleId, minutes)` at the frozen clock `now`:
record `now + minutes * 60000` as the resume-at timestamp; nothing else in
the state changes. -/
def snooze (st : SchedulerState) (scheduleId : String) (minutes now : Int) : SchedulerState :=
  let snoozeEnd := now + minutes * 60000
  { st with snoozedSchedules := snoozeSet st.snoozedSchedules scheduleId snoozeEnd }

/-- The schedules that `Scheduler.checkSchedules` fires at the instant `now`:
the due schedules whose snooze entry (if any) is not active. -/
def checkSchedulesFires (st : SchedulerState) (now : Int) : List Schedule :=
  (getDueSchedules st.schedules now).filter
    (fun s => !snoozeActive st.snoozedSchedules s.id now)

/-- The filter condition of `Scheduler.checkMissedReminders`: enabled,
non-null `nextTriggerAt`, trigger strictly in the past but within the
5-minute missed window, and not yet triggered.  Note that, unlike
`checkSchedules`, this path never consults the snooze map. -/
def missedFilter (now : Int) (s : Schedule) : Bool :=
  s.enabled &&
    match s.nextTriggerAt with
    | none => false
    | some triggerTime =>
      let lastTriggered := s.lastTriggeredAt.getD 0
      decide (triggerTime < now) && decide (now - 300000 < triggerTime) &&
        decide (lastTriggered < triggerTime)

/-- The schedules that `Scheduler.checkMissedReminders` fires at `now`. -/
def checkMissedFires (st : SchedulerState) (now : Int) : List Schedule :=
  st.schedules.filter (missedFilter now)

/-- `SchedulesModel.markTriggered(id)` applied to one schedule at the frozen
clock `now`: stamp `lastTriggeredAt`; a `once` schedule is disabled with
`nextTriggerAt` cleared; otherwise `nextTriggerAt` is recomputed (the source
passes no `dateTime` to the recomputation, hence `none` here). -/
def markTriggered (s : Schedule) (now : Int) : Schedule :=
  let s1 := { s with lastTriggeredAt := some now }
  if s.timing.type == "once" then
    { s1 with enabled := false, nextTriggerAt := none }
  else
    let recomputeData : TimingData :=
      { type := s.timing.type
        daysOfWeek := s.timing.daysOfWeek
        time := s.timing.time
        dateTime := none
        reminderMinutesBefore := s.timing.reminderMinutesBefore }
    { s1 with nextTriggerAt := calculateNextTrigger recomputeData now }

/-! ## AutomationEngine (`server/puppeteer/autoorder.js`, `automateOrder`) -/

/-- The result object of `automateOrder` on the non-throwing path. -/
structure AOResult where
  success : Bool
  message : String
  itemsAdded : Nat
deriving DecidableEq

/-- The `for (const itemName of items)` loop of `automateOrder`: `resolve i`
is the oracle for whether `tryAddItem` succeeds on the `i`-th requested item
(its outcome depends on the live page, so it is a parameter of the model);
`itemsAdded` is the accumulator. -/
def runAddLoop (resolve : Nat → Bool) : List String → Nat → Nat → Nat
  | [], _, itemsAdded => itemsAdded
  | _ :: rest, idx, itemsAdded =>
    runAddLoop resolve rest (idx + 1) (if resolve idx then itemsAdded + 1 else itemsAdded)

/-- `automateOrder` on the path where no session-level error is thrown:
an empty item list returns immediately with zero items added ("navigate
only"); otherwise each item is attempted independently and the count of
successes is reported.  `success` is `true` in both cases. -/
def automateOrder (items : List String) (resolve : Nat → Bool) : AOResult :=
  if items.isEmpty then
    { success := true, message := "Store page opened successfully", itemsAdded := 0 }
  else
    let itemsAdded := runAddLoop resolve items 0 0
    { success := true
      message := "Added " ++ toString itemsAdded ++ " of " ++
        toString items.length ++ " items to cart"
      itemsAdded := itemsAdded }

/-! ## Outcome recording (`js/doordash.js`, `DoorDash.triggerOrder`) -/

/-- The status string recorded to the order history by `triggerOrder` after a
non-throwing server round trip, as a function of the `itemsAdded` reported by
the server and the number of requested items.  Translated verbatim:
`itemsAdded = result.itemsAdded || totalItems` (a JavaScript `||`, so a
reported `0` falls back to `totalItems`), then
`failed` / `partial` / `completed` by comparing with `totalItems`. -/
def recordedOrderStatus (resultItemsAdded totalItems : Nat) : String :=
  let itemsAdded := if resultItemsAdded == 0 then totalItems else resultItemsAdded
  if itemsAdded == 0 then "failed"
  else if itemsAdded < totalItems then "partial"
  else "completed"

/-! ## HTTP boundary (`server/server.js`, `POST /api/order`) -/

/-- The request body fields read by the order endpoint. -/
structure OrderRequest where
  storeUrl : Option String
  storeName : Option String
  items : Option (List String)
  specialInstructions : Option String
deriving DecidableEq

/-- The JSON response of the order endpoint (status code plus the body
fields any branch may set). -/
structure HttpResponse where
  status : Nat
  error : Option String
  success : Option Bool
  message : Option String
  itemsAdded : Option Nat
  details : Option String
deriving DecidableEq

/-- Locate the first `"://"` and return what follows it (the authority part
of the URL), or `none` when there is no scheme separator. -/
def afterScheme : List Char → Option (List Char)
  | [] => none
  | c :: rest =>
    if startsWithL (c :: rest) [':', '/', '/'] then some (rest.drop 2)
    else afterScheme rest

/-- Hostname extraction, modelling the platform `new URL(u).hostname`:
`none` when the parser would throw (no `://` separator or empty host),
otherwise the authority up to the first delimiter. -/
def parseHostname (url : String) : Option String :=
  match afterScheme url.data with
  | none => none
  | some rest =>
    let host := rest.takeWhile
      (fun c => !(c == '/') && !(c == ':') && !(c == '?') && !(c == '#'))
    if host.isEmpty then none else some ⟨host⟩

/-- The endpoint's destination test: `url.hostname.includes('doordash.com')`. -/
def hostMatchesDoorDash (host : String) : Bool :=
  hasSub host.data "doordash.com".data

/-- What the awaited `automateOrder(...)` call did: returned a result or
threw with a message and stack (an oracle parameter of the handler model). -/
inductive AutomationOutcome where
  | ok (r : AOResult)
  | thrown (message stack : String)
deriving DecidableEq

/-- The `POST /api/order` handler.  Returns the response together with a
flag recording whether the browser layer (`automateOrder`) was invoked.
`devMode` is `process.env.NODE_ENV === 'development'`, gating the `details`
field. -/
def handleOrder (req : OrderRequest) (outcome : AutomationOutcome) (devMode : Bool) :
    HttpResponse × Bool :=
  match req.storeUrl with
  | none => (⟨400, some "Store URL is required", none, none, none, none⟩, false)
  | some storeUrl =>
    if storeUrl.isEmpty then
      (⟨400, some "Store URL is required", none, none, none, none⟩, false)
    else
      match parseHostname storeUrl with
      | none => (⟨400, some "Invalid URL format", none, none, none, none⟩, false)
      | some host =>
        if !hostMatchesDoorDash host then
          (⟨400, some "Invalid DoorDash URL", none, none, none, none⟩, false)
        else
          match outcome with
          | .ok r =>
            (⟨200, none, some true,
              some (if r.message.isEmpty then "Order automation completed" else r.message),
              some r.itemsAdded, none⟩, true)
          | .thrown msg stack =>
            (⟨500, some (if msg.isEmpty then "Automation failed" else msg), none, none, none,
              if devMode then some stack else none⟩, true)

/-! ## Concurrency guard (`js/doordash.js`, `DoorDash.isAutomating`) -/

/-- The value `triggerOrder` returns to its caller. -/
structure ClientResult where
  success : Bool
  message : String
deriving DecidableEq

/-- The client-process state around the in-flight flag: the flag itself,
the number of automation executions currently active, and how many order
requests have been sent to the server. -/
structure AutoState where
  isAutomating : Bool
  activeRuns : Nat
  serverCalls : Nat
deriving DecidableEq

/-- The synchronous head of `DoorDash.triggerOrder`: if the in-flight flag
is set, return the rejection immediately (no session, no server request);
otherwise set the flag and begin an execution (which will issue one server
request). -/
def triggerOrderStart (st : AutoState) : AutoState × ClientResult :=
  if st.isAutomating then
    (st, { success := false, message := "Already automating" })
  else
    ({ isAutomating := true, activeRuns := st.activeRuns + 1,
       serverCalls := st.serverCalls + 1 },
     { success := true, message := "Starting order automation..." })

/-- Events of the client process: a new `triggerOrder` request arrives, or
the in-flight execution reaches its `finally` block and clears the flag. -/
inductive AutoEvent where
  | request
  | complete
deriving DecidableEq

/-- One step of the client process. -/
def autoStep (st : AutoState) : AutoEvent → AutoState
  | .request => (triggerOrderStart st).fst
  | .complete => { st with isAutomating := false, activeRuns := st.activeRuns - 1 }

/-- The state after an arbitrary event sequence, from the initial state
(flag clear, nothing active). -/
def autoRun (events : List AutoEvent) : AutoState :=
  events.foldl autoStep { isAutomating := false, activeRuns := 0, serverCalls := 0 }

/-! ## Example states used by the concrete theorems -/

/-- A schedule that is timestamp-due shortly after `t = 1000000` and has
never fired. -/
def snoozedDueSchedule : Schedule :=
  { id := "sched1", favoriteId := "fav1", enabled := true, autoOpen := false
    timing := { type := "recurring", daysOfWeek := [1], time := some (12, 0)
                dateTime := none, reminderMinutesBefore := 15 }
    lastTriggeredAt := none, nextTriggerAt := some 1000000 }

/-- A recurring schedule whose reminder offset (20160 minutes = 14 days)
pushes every candidate of the 7-day scan into the past. -/
def staleOffsetSchedule : Schedule :=
  { id := "sched2", favoriteId := "fav1", enabled := true, autoOpen := false
    timing := { type := "recurring", daysOfWeek := [1], time := some (12, 0)
                dateTime := none, reminderMinutesBefore := 20160 }
    lastTriggeredAt := none, nextTriggerAt := some 1000000 }

/-- A one-time schedule targeting `t = 1000000` with no reminder offset. -/
def simpleOnceSchedule : Schedule :=
  { id := "sched3", favoriteId := "fav1", enabled := true, autoOpen := false
    timing := { type := "once", daysOfWeek := [], time := none
                dateTime := some 1000000, reminderMinutesBefore := 0 }
    lastTriggeredAt := none, nextTriggerAt := some 1000000 }

/-! ## Claim theorems -/

/-- Claim C1 (status classification of recorded outcomes, evaluated at the
inputs where the code diverges from the claim): when the server reports
`itemsAdded = 0` for a two-item request the history records `"completed"`
(the claim requires Failed), because `result.itemsAdded || totalItems`
replaces the falsy `0` by the request size; and an empty request
(`itemsRequested = 0`, `itemsFulfilled = 0`) records `"failed"` (the claim
requires Completed).  The claim's Partial example (one of two items
fulfilled) does hold. -/
theorem recordedOrderStatus_eval :
    recordedOrderStatus 0 2 = "completed" ∧
    recordedOrderStatus 0 0 = "failed" ∧
    recordedOrderStatus 1 2 = "partial" ∧
    recordedOrderStatus 2 2 = "completed" :=
  ⟨rfl, rfl, rfl, rfl⟩

/-- Claim C3, counterexample: `normalize` does not strip every
non-alphanumeric non-space character — the JavaScript `\w` class keeps the
underscore, so `normalize "a_b"` is `"a_b"`, not the `"ab"` the claim
requires; moreover `match` on two empty strings is `false` although their
normalizations are (vacuously) equal. -/
theorem normalize_underscore_counterexample :
    normalize "a_b" = "a_b" ∧ "a_b" ≠ "ab" ∧ fuzzyMatch "" "" = false :=
  ⟨rfl, by decide, rfl⟩

/-- Claim C2, counterexample: with the schedule timestamp-due at
`now = 1001000` (trigger instant `1000000`) and an active snooze entry
resuming at `1301000`, the missed-reminder recovery scan
(`checkMissedReminders`) still fires the schedule: that firing path never
consults the snooze map. -/
theorem checkMissed_ignores_snooze_counterexample :
    checkMissedFires ⟨[snoozedDueSchedule], [("sched1", 1301000)]⟩ 1001000 =
      [snoozedDueSchedule] ∧
    snoozeActive [("sched1", 1301000)] "sched1" 1001000 = true ∧
    getDueSchedules [snoozedDueSchedule] 1001000 = [snoozedDueSchedule] :=
  ⟨rfl, rfl, rfl⟩

/-- Claim C6, counterexample: firing a recurring schedule whose reminder
offset exceeds the 7-day scan window leaves `nextTriggerAt = null` rather
than an instant strictly later than the new `lastTriggeredAt`. -/
theorem markTriggered_offset_counterexample :
    staleOffsetSchedule.timing.type = "recurring" ∧
    (markTriggered staleOffsetSchedule 36000000).lastTriggeredAt = some 36000000 ∧
    (markTriggered staleOffsetSchedule 36000000).nextTriggerAt = none :=
  ⟨rfl, by decide, by decide⟩

/-- Claim C7: for a Once timing definition with target `T` and reminder
offset `O` minutes, the calculator returns `T - O·60000` exactly when that
instant is strictly after `now`, and `none` otherwise — for any values of
the fields the once-branch ignores; and the calculator is a pure function of
its inputs, so two evaluations at the same frozen `now` agree. -/
theorem calculateNextTrigger_once_spec (dw : List Nat) (tm : Option (Nat × Nat))
    (T O now : Int) :
    calculateNextTrigger ⟨"once", dw, tm, some T, O⟩ now =
      (if now < T - O * 60000 then some (T - O * 60000) else none) ∧
    ∀ (d : TimingData) (n : Int), calculateNextTrigger d n = calculateNextTrigger d n := by
  refine ⟨?_, fun d n => rfl⟩
  simp [calculateNextTrigger]

/-- The add-item loop of `automateOrder` increments its accumulator at most
once per remaining item. -/
theorem runAddLoop_le (resolve : Nat → Bool) :
    ∀ (l : List String) (idx acc : Nat), runAddLoop resolve l idx acc ≤ acc + l.length := by
  intro l
  induction l with
  | nil => intro idx acc; simp [runAddLoop]
  | cons a rest ih =>
    intro idx acc
    have h := ih (idx + 1) (if resolve idx then acc + 1 else acc)
    simp only [runAddLoop]
    by_cases hr : resolve idx = true <;> simp [hr] at h ⊢ <;> omega

/-- Claim C10: whenever `automateOrder` returns without a session-level
error, the reported `itemsAdded` is between `0` and the number of requested
items: the count starts at zero and each requested item contributes at most
one increment (only when its resolution cascade succeeds). -/
theorem automateOrder_itemsAdded_le (items : List String) (resolve : Nat → Bool) :
    (automateOrder items resolve).itemsAdded ≤ items.length := by
  unfold automateOrder
  cases items with
  | nil => simp
  | cons a rest =>
    have h := runAddLoop_le resolve (a :: rest) 0 0
    simpa using h

/-- The invariant connecting the in-flight flag and the number of active
executions. -/
def autoInv (st : AutoState) : Prop :=
  st.activeRuns = if st.isAutomating then 1 else 0

/-- Every event preserves the flag/active-run invariant. -/
theorem autoStep_inv (st : AutoState) (e : AutoEvent) (h : autoInv st) :
    autoInv (autoStep st e) := by
  cases e with
  | request =>
    unfold autoInv autoStep triggerOrderStart at *
    cases hb : st.isAutomating <;> simp [hb] at h ⊢ <;> omega
  | complete =>
    unfold autoInv autoStep at *
    cases hb : st.isAutomating <;> simp [hb] at h ⊢ <;> omega

/-- The invariant holds after any event sequence from an invariant state. -/
theorem foldl_autoStep_inv :
    ∀ (events : List AutoEvent) (st : AutoState), autoInv st →
      autoInv (events.foldl autoStep st) := by
  intro events
  induction events with
  | nil => intro st h; exact h
  | cons e rest ih => intro st h; exact ih _ (autoStep_inv st e h)

/-- Claim C8: the in-flight flag admits at most one active automation
execution at any reachable state, and a `triggerOrder` request arriving
while the flag is set is rejected immediately with the `Already automating`
failure: the state — in particular the number of active browser sessions
and the number of server requests issued — is completely unchanged, so the
request is neither queued nor executed. -/
theorem automation_concurrency_guard :
    (∀ events : List AutoEvent, (autoRun events).activeRuns ≤ 1) ∧
    (∀ st : AutoState, st.isAutomating = true →
      triggerOrderStart st = (st, { success := false, message := "Already automating" })) := by
  constructor
  · intro events
    have h := foldl_autoStep_inv events
      { isAutomating := false, activeRuns := 0, serverCalls := 0 } (by simp [autoInv])
    unfold autoRun
    unfold autoInv at h
    rw [h]
    split <;> omega
  · intro st h
    simp [triggerOrderStart, h]

/-- Claim C8, witness: a second request arriving while a run is in flight
(one active run, three server calls so far) is rejected with the state
untouched. -/
theorem automation_concurrency_guard_witness :
    triggerOrderStart ⟨true, 1, 3⟩ =
      (⟨true, 1, 3⟩, { success := false, message := "Already automating" }) :=
  automation_concurrency_guard.2 ⟨true, 1, 3⟩ rfl

/-- Claim C9: the order endpoint returns 400 with an error body — without
ever invoking the browser layer — when the store URL is missing (absent or
empty), unparseable, or its hostname does not match the DoorDash
destination test; when execution runs and returns (success and partial
alike), it returns 200 with `success`/`message`/`itemsAdded`; when
execution throws, it returns 500 with `error` and, in development mode only,
`details`. -/
theorem handleOrder_spec (req : OrderRequest) (outcome : AutomationOutcome)
    (devMode : Bool) :
    ((req.storeUrl = none ∨ req.storeUrl = some "") →
      handleOrder req outcome devMode =
        (⟨400, some "Store URL is required", none, none, none, none⟩, false)) ∧
    (∀ u, req.storeUrl = some u → u.isEmpty = false → parseHostname u = none →
      handleOrder req outcome devMode =
        (⟨400, some "Invalid URL format", none, none, none, none⟩, false)) ∧
    (∀ u host, req.storeUrl = some u → u.isEmpty = false →
      parseHostname u = some host → hostMatchesDoorDash host = false →
      handleOrder req outcome devMode =
        (⟨400, some "Invalid DoorDash URL", none, none, none, none⟩, false)) ∧
    (∀ u host r, req.storeUrl = some u → u.isEmpty = false →
      parseHostname u = some host → hostMatchesDoorDash host = true →
      outcome = .ok r →
      handleOrder req outcome devMode =
        (⟨200, none, some true,
          some (if r.message.isEmpty then "Order automation completed" else r.message),
          some r.itemsAdded, none⟩, true)) ∧
    (∀ u host msg stack, req.storeUrl = some u → u.isEmpty = false →
      parseHostname u = some host → hostMatchesDoorDash host = true →
      outcome = .thrown msg stack →
      handleOrder req outcome devMode =
        (⟨500, some (if msg.isEmpty then "Automation failed" else msg), none, none, none,
          if devMode then some stack else none⟩, true)) := by
  refine ⟨?_, ?_, ?_, ?_, ?_⟩
  · rintro (h | h)
    · simp [handleOrder, h]
    · simp [handleOrder, h]
      intro hc
      exact absurd hc (by decide)
  · intro u hu hne hparse
    simp [handleOrder, hu, hne, hparse]
  · intro u host hu hne hparse hmatch
    simp [handleOrder, hu, hne, hparse, hmatch]
  · intro u host r hu hne hparse hmatch hout
    simp [handleOrder, hu, hne, hparse, hmatch, hout]
  · intro u host msg stack hu hne hparse hmatch hout
    simp [handleOrder, hu, hne, hparse, hmatch, hout]

/-- Claim C9, witness: a well-formed DoorDash store URL with a successful
two-item execution yields 200 with the execution's message and count. -/
theorem handleOrder_spec_witness :
    handleOrder ⟨some "https://www.doordash.com/store/chipotle-city-12345/",
        some "Chipotle", some ["A", "B"], some ""⟩
      (.ok ⟨true, "Added 2 of 2 items to cart", 2⟩) false =
      (⟨200, none, some true, some "Added 2 of 2 items to cart", some 2, none⟩, true) :=
  (handleOrder_spec ⟨some "https://www.doordash.com/store/chipotle-city-12345/",
        some "Chipotle", some ["A", "B"], some ""⟩
      (.ok ⟨true, "Added 2 of 2 items to cart", 2⟩) false).2.2.2.1
    "https://www.doordash.com/store/chipotle-city-12345/" "www.doordash.com"
    ⟨true, "Added 2 of 2 items to cart", 2⟩ rfl rfl (by decide) (by decide) rfl

/-- The 7-day scan returns `none` exactly when no selected day in its range
yields a strictly future candidate. -/
theorem recurringGo_eq_none_iff (days : List Nat) (hh mm : Nat) (off now : Int) :
    ∀ (k i : Nat), recurringGo days hh mm off now i k = none ↔
      ∀ j, i ≤ j → j < i + k → days.contains (weekdayAt now j) = true →
        candidateAt now hh mm off j ≤ now := by
  intro k
  induction k with
  | zero =>
    intro i
    constructor
    · intro _ j h1 h2 _
      omega
    · intro _
      rfl
  | succ k ih =>
    intro i
    by_cases hsel : days.contains (weekdayAt now i) = true
    · by_cases hc : now < candidateAt now hh mm off i
      · simp only [recurringGo, hsel, hc, if_true]
        constructor
        · intro h
          exact Option.noConfusion h
        · intro h
          have := h i le_rfl (by omega) hsel
          omega
      · simp only [recurringGo, hsel, hc, if_true, if_false]
        rw [ih (i + 1)]
        constructor
        · intro h j h1 h2 hj
          rcases Nat.eq_or_lt_of_le h1 with rfl | hlt
          · omega
          · exact h j hlt (by omega) hj
        · intro h j h1 h2 hj
          exact h j (by omega) (by omega) hj
    · simp only [recurringGo, hsel, Bool.false_eq_true, if_false]
      rw [ih (i + 1)]
      constructor
      · intro h j h1 h2 hj
        rcases Nat.eq_or_lt_of_le h1 with rfl | hlt
        · exact absurd hj hsel
        · exact h j hlt (by omega) hj
      · intro h j h1 h2 hj
        exact h j (by omega) (by omega) hj

/-- When the 7-day scan returns a candidate, it is strictly future, it
belongs to a selected day in range, and every selected day strictly before
it yielded a past candidate. -/
theorem recurringGo_eq_some (days : List Nat) (hh mm : Nat) (off now : Int) :
    ∀ (k i : Nat) (c : Int), recurringGo days hh mm off now i k = some c →
      now < c ∧ ∃ j, i ≤ j ∧ j < i + k ∧ days.contains (weekdayAt now j) = true ∧
        candidateAt now hh mm off j = c ∧
        ∀ j2, i ≤ j2 → j2 < j → days.contains (weekdayAt now j2) = true →
          candidateAt now hh mm off j2 ≤ now := by
  intro k
  induction k with
  | zero =>
    intro i c h
    simp only [recurringGo] at h
    exact Option.noConfusion h
  | succ k ih =>
    intro i c h
    by_cases hsel : days.contains (weekdayAt now i) = true
    · by_cases hc : now < candidateAt now hh mm off i
      · simp only [recurringGo, hsel, hc, if_true] at h
        obtain rfl : candidateAt now hh mm off i = c := by
          injection h
        refine ⟨hc, i, le_rfl, by omega, hsel, rfl, ?_⟩
        intro j2 h1 h2 _
        omega
      · simp only [recurringGo, hsel, hc, if_true, if_false] at h
        obtain ⟨hnc, j, hj1, hj2, hjsel, hjc, hmin⟩ := ih (i + 1) c h
        refine ⟨hnc, j, by omega, by omega, hjsel, hjc, ?_⟩
        intro j2 hl1 hl2 hsel2
        rcases Nat.eq_or_lt_of_le hl1 with rfl | hlt
        · omega
        · exact hmin j2 hlt hl2 hsel2
    · simp only [recurringGo, hsel, Bool.false_eq_true, if_false] at h
      obtain ⟨hnc, j, hj1, hj2, hjsel, hjc, hmin⟩ := ih (i + 1) c h
      refine ⟨hnc, j, by omega, by omega, hjsel, hjc, ?_⟩
      intro j2 hl1 hl2 hsel2
      rcases Nat.eq_or_lt_of_le hl1 with rfl | hlt
      · exact absurd hsel2 hsel
      · exact hmin j2 hlt hl2 hsel2

/-- Candidates of later scan days are never earlier (each day adds one full
86 400 000 ms day at the same time-of-day). -/
theorem candidateAt_mono (now : Int) (hh mm : Nat) (off : Int) {i j : Nat}
    (h : i ≤ j) : candidateAt now hh mm off i ≤ candidateAt now hh mm off j := by
  unfold candidateAt msPerDay
  generalize now / 86400000 = d
  have hij : (i : Int) ≤ (j : Int) := by exact_mod_cast h
  nlinarith

/-- Claim C4: for a recurring timing definition (weekday set, `hh:mm`
time-of-day, reminder offset in minutes) the calculator scans the seven
calendar days starting today: an empty weekday set yields `none`; the result
is `none` exactly when no selected day in the window yields a candidate
strictly after `now` (past candidates are skipped, never returned); and a
returned candidate is strictly future, arises from a selected day within the
window, and is the chronologically first such future candidate. -/
theorem calculateNextTrigger_recurring_spec (days : List Nat) (hh mm : Nat)
    (off now : Int) (dt : Option Int) :
    (days = [] →
      calculateNextTrigger ⟨"recurring", days, some (hh, mm), dt, off⟩ now = none) ∧
    (calculateNextTrigger ⟨"recurring", days, some (hh, mm), dt, off⟩ now = none ↔
      ∀ i, i < 7 → days.contains (weekdayAt now i) = true →
        candidateAt now hh mm (off * 60000) i ≤ now) ∧
    (∀ c, calculateNextTrigger ⟨"recurring", days, some (hh, mm), dt, off⟩ now = some c →
      now < c ∧
      (∃ i, i < 7 ∧ days.contains (weekdayAt now i) = true ∧
        candidateAt now hh mm (off * 60000) i = c) ∧
      ∀ j, j < 7 → days.contains (weekdayAt now j) = true →
        now < candidateAt now hh mm (off * 60000) j →
        c ≤ candidateAt now hh mm (off * 60000) j) := by
  have hred : calculateNextTrigger ⟨"recurring", days, some (hh, mm), dt, off⟩ now =
      if days.isEmpty then none else recurringGo days hh mm (off * 60000) now 0 7 := by
    simp [calculateNextTrigger]
  refine ⟨?_, ?_, ?_⟩
  · intro h
    rw [hred, h]
    rfl
  · rw [hred]
    by_cases hemp : days.isEmpty = true
    · have hnil : days = [] := by
        simpa using hemp
      subst hnil
      simp
    · simp only [hemp, Bool.false_eq_true, if_false]
      rw [recurringGo_eq_none_iff]
      constructor
      · intro h i h7 hsel
        exact h i (Nat.zero_le i) (by omega) hsel
      · intro h j h0 h7 hsel
        exact h j (by omega) hsel
  · intro c hc
    rw [hred] at hc
    by_cases hemp : days.isEmpty = true
    · rw [if_pos hemp] at hc
      exact Option.noConfusion hc
    · rw [if_neg hemp] at hc
      obtain ⟨hnc, j, hj0, hj7, hjsel, hjc, hmin⟩ :=
        recurringGo_eq_some days hh mm (off * 60000) now 7 0 c hc
      refine ⟨hnc, ⟨j, by omega, hjsel, hjc⟩, ?_⟩
      intro j2 h7 hsel2 hfut
      by_cases hlt : j2 < j
      · have := hmin j2 (Nat.zero_le _) hlt hsel2
        omega
      · rw [← hjc]
        exact candidateAt_mono now hh mm (off * 60000) (by omega)

/-- Claim C4, witness: days {Mon, Wed}, time 12:00, offset 0, evaluated at
Sunday 10:00 (`now = 36000000` in the day-0-is-Sunday model) yields the
following Monday 12:00 (`129600000`), which is the first future candidate. -/
theorem calculateNextTrigger_recurring_spec_witness :
    (36000000 : Int) < 129600000 ∧
    (∃ i, i < 7 ∧ [1, 3].contains (weekdayAt 36000000 i) = true ∧
      candidateAt 36000000 12 0 (0 * 60000) i = 129600000) ∧
    ∀ j, j < 7 → [1, 3].contains (weekdayAt 36000000 j) = true →
      (36000000 : Int) < candidateAt 36000000 12 0 (0 * 60000) j →
      (129600000 : Int) ≤ candidateAt 36000000 12 0 (0 * 60000) j :=
  (calculateNextTrigger_recurring_spec [1, 3] 12 0 0 36000000 none).2.2
    129600000 (by decide)

/-- Whatever instant the calculator returns is strictly after the frozen
`now` it was evaluated at (both branches only emit future candidates). -/
theorem calculateNextTrigger_pos (d : TimingData) (now t : Int)
    (h : calculateNextTrigger d now = some t) : now < t := by
  unfold calculateNextTrigger at h
  by_cases h1 : (d.type == "once") = true
  · simp only [h1, if_true] at h
    cases hdt : d.dateTime with
    | none => rw [hdt] at h; exact Option.noConfusion h
    | some dt =>
      rw [hdt] at h
      simp only at h
      by_cases h2 : now < dt - d.reminderMinutesBefore * 60000
      · rw [if_pos h2] at h
        obtain rfl : dt - d.reminderMinutesBefore * 60000 = t := by injection h
        exact h2
      · rw [if_neg h2] at h
        exact Option.noConfusion h
  · simp only [h1, Bool.not_eq_true] at h
    rw [if_neg (by simp [h1])] at h
    by_cases h2 : (d.type == "recurring") = true
    · rw [if_pos h2] at h
      cases htm : d.time with
      | none => rw [htm] at h; exact Option.noConfusion h
      | some p =>
        rw [htm] at h
        obtain ⟨hh, mm⟩ := p
        simp only at h
        by_cases h3 : d.daysOfWeek.isEmpty = true
        · rw [if_pos h3] at h
          exact Option.noConfusion h
        · rw [if_neg h3] at h
          exact (recurringGo_eq_some d.daysOfWeek hh mm
            (d.reminderMinutesBefore * 60000) now 7 0 t h).1
    · rw [if_neg h2] at h
      exact Option.noConfusion h

/-- Claim C6 (amended): after `markTriggered` at the frozen clock `now`,
`lastTriggeredAt` is `now`; a Once schedule is disabled with
`nextTriggerAt = null`; for any other timing kind, whenever the recomputed
`nextTriggerAt` is non-null it is strictly later than the new
`lastTriggeredAt` (it is null when the 7-day scan finds no future
candidate); and `lastTriggeredAt` never decreases across fires, provided the
clock does not run backwards. -/
theorem markTriggered_spec (s : Schedule) (now : Int) :
    ((markTriggered s now).lastTriggeredAt = some now) ∧
    (s.timing.type = "once" →
      (markTriggered s now).enabled = false ∧
      (markTriggered s now).nextTriggerAt = none) ∧
    (∀ t, (markTriggered s now).nextTriggerAt = some t → now < t) ∧
    (∀ l, s.lastTriggeredAt = some l → l ≤ now →
      ∃ l2, (markTriggered s now).lastTriggeredAt = some l2 ∧ l ≤ l2) := by
  refine ⟨?_, ?_, ?_, ?_⟩
  · unfold markTriggered
    by_cases h1 : (s.timing.type == "once") = true <;> simp [h1]
  · intro htype
    have h1 : (s.timing.type == "once") = true := by simp [htype]
    unfold markTriggered
    simp [h1]
  · intro t ht
    unfold markTriggered at ht
    by_cases h1 : (s.timing.type == "once") = true
    · simp [h1] at ht
    · simp only [h1, Bool.false_eq_true, if_false] at ht
      exact calculateNextTrigger_pos _ now t ht
  · intro l _ hle
    unfold markTriggered
    by_cases h1 : (s.timing.type == "once") = true
    · exact ⟨now, by simp [h1], hle⟩
    · exact ⟨now, by simp [h1], hle⟩

/-- Claim C6, witness: firing the example one-time schedule disables it and
clears its next trigger. -/
theorem markTriggered_spec_witness :
    (markTriggered simpleOnceSchedule 5000).enabled = false ∧
    (markTriggered simpleOnceSchedule 5000).nextTriggerAt = none :=
  (markTriggered_spec simpleOnceSchedule 5000).2.1 rfl

/-- The snooze guard is inactive exactly when no recorded resume-at
timestamp is strictly future (for non-negative clocks, where a recorded `0`
can never be strictly future anyway). -/
theorem snoozeActive_eq_false_iff (m : SnoozeMap) (id : String) (now : Int)
    (hnow : 0 ≤ now) :
    snoozeActive m id now = false ↔
      ¬ ∃ e, snoozeGet m id = some e ∧ now < e := by
  cases hg : snoozeGet m id with
  | none =>
    unfold snoozeActive
    rw [hg]
    simp
  | some e =>
    unfold snoozeActive
    rw [hg]
    constructor
    · intro h
      rintro ⟨e2, he2, hlt⟩
      obtain rfl := Option.some.inj he2
      rcases Bool.and_eq_false_iff.mp h with h1 | h2
      · have he0 : e = 0 := by simpa using h1
        omega
      · have hne : ¬ now < e := by simpa using h2
        exact hne hlt
    · intro h
      have hne : ¬ now < e := fun hlt => h ⟨e, rfl, hlt⟩
      apply Bool.and_eq_false_iff.mpr
      right
      simpa using hne

/-- Claim C5: a schedule fires from the periodic check (`getDueSchedules`
composed with the snooze guard of `checkSchedules`) exactly when it is
stored, enabled, has a non-null `nextTriggerAt` that lies in the half-open
window `(now − 30000, now]`, has not yet fired for that instant (a null
`lastTriggeredAt` counts as arbitrarily early), and has no active snooze
entry.  The positivity hypotheses say the clock and the stored trigger
timestamp are genuine epoch timestamps. -/
theorem dueSchedule_iff (st : SchedulerState) (now : Int) (s : Schedule)
    (hnow : 0 ≤ now)
    (hpos : ∀ t, s.nextTriggerAt = some t → 0 < t) :
    s ∈ checkSchedulesFires st now ↔
      (s ∈ st.schedules ∧ s.enabled = true ∧
       ∃ trig, s.nextTriggerAt = some trig ∧ trig ≤ now ∧ now - 30000 < trig ∧
         (∀ l, s.lastTriggeredAt = some l → l < trig) ∧
         ¬ ∃ e, snoozeGet st.snoozedSchedules s.id = some e ∧ now < e) := by
  unfold checkSchedulesFires getDueSchedules
  rw [List.mem_filter, List.mem_filter]
  have hsnz := snoozeActive_eq_false_iff st.snoozedSchedules s.id now hnow
  constructor
  · rintro ⟨⟨hmem, hdue⟩, hguard⟩
    simp only [Bool.not_eq_true'] at hguard
    unfold dueFilter at hdue
    cases hnx : s.nextTriggerAt with
    | none =>
      rw [hnx] at hdue
      simp at hdue
    | some trig =>
      rw [hnx] at hdue
      simp only [Bool.and_eq_true, decide_eq_true_eq] at hdue
      obtain ⟨hen, ⟨hle, hwin⟩, hlast⟩ := hdue
      refine ⟨hmem, hen, trig, rfl, hle, hwin, ?_, hsnz.mp hguard⟩
      intro l hl
      rw [hl] at hlast
      simpa using hlast
  · rintro ⟨hmem, hen, trig, hnx, hle, hwin, hlast, hnosnz⟩
    refine ⟨⟨hmem, ?_⟩, ?_⟩
    · unfold dueFilter
      rw [hnx]
      simp only [Bool.and_eq_true, decide_eq_true_eq]
      refine ⟨hen, ⟨hle, hwin⟩, ?_⟩
      cases hl : s.lastTriggeredAt with
      | none =>
        simp only [hl, Option.getD_none]
        exact hpos trig hnx
      | some l =>
        simp only [hl, Option.getD_some]
        exact hlast l hl
    · simp only [Bool.not_eq_true']
      exact hsnz.mpr hnosnz

/-- Claim C5, witness: the example schedule (`nextTriggerAt = 1000000`,
null `lastTriggeredAt`, no snooze) is due at `now = 1005000` — five seconds
after its trigger, inside the 30-second window — and the same schedule with
`lastTriggeredAt` set equal to its trigger instant no longer fires. -/
theorem dueSchedule_iff_witness :
    (snoozedDueSchedule ∈ ([snoozedDueSchedule] : List Schedule) ∧
     snoozedDueSchedule.enabled = true ∧
     ∃ trig, snoozedDueSchedule.nextTriggerAt = some trig ∧ trig ≤ 1005000 ∧
       (1005000 : Int) - 30000 < trig ∧
       (∀ l, snoozedDueSchedule.lastTriggeredAt = some l → l < trig) ∧
       ¬ ∃ e, snoozeGet ([] : SnoozeMap) snoozedDueSchedule.id = some e ∧ (1005000 : Int) < e) ∧
    checkSchedulesFires ⟨[{snoozedDueSchedule with lastTriggeredAt := some 1000000}], []⟩
      1005000 = [] := by
  constructor
  · exact (dueSchedule_iff ⟨[snoozedDueSchedule], []⟩ 1005000 snoozedDueSchedule
      (by decide) (by intro t ht; simp [snoozedDueSchedule] at ht; omega)).mp (by decide)
  · rfl

/-- Claim C2 (amended): `snooze` records `now + minutes·60000` in the snooze
registry and leaves every schedule — in particular `nextTriggerAt` —
unchanged; while the recorded resume-at timestamp is strictly future, the
periodic due-schedule check does not fire the snoozed schedule; and once the
snooze has elapsed the periodic check fires it again whenever it still
satisfies the due conditions.  (Per the counterexample, the missed-reminder
recovery scan is exempt: it never consults the snooze registry.) -/
theorem snooze_suppresses_periodic_check (st : SchedulerState) (sid : String)
    (minutes now : Int) :
    ((snooze st sid minutes now).schedules = st.schedules) ∧
    (∀ (s : Schedule) (now2 : Int), 0 ≤ now2 → s.id = sid →
      now2 < now + minutes * 60000 →
      s ∉ checkSchedulesFires (snooze st sid minutes now) now2) ∧
    (∀ (s : Schedule) (now3 : Int), s.id = sid →
      now + minutes * 60000 ≤ now3 →
      s ∈ st.schedules → dueFilter now3 s = true →
      s ∈ checkSchedulesFires (snooze st sid minutes now) now3) := by
  refine ⟨rfl, ?_, ?_⟩
  · intro s now2 hnn hid hlt hmem
    unfold checkSchedulesFires at hmem
    rw [List.mem_filter] at hmem
    have hget : snoozeGet (snooze st sid minutes now).snoozedSchedules s.id =
        some (now + minutes * 60000) := by
      simp [snooze, snoozeSet, snoozeGet, hid]
    have hact : snoozeActive (snooze st sid minutes now).snoozedSchedules s.id now2 = true := by
      unfold snoozeActive
      rw [hget]
      have hne : ¬ (now + minutes * 60000 = 0) := by omega
      simp [hlt, hne]
    rw [hact] at hmem
    simp at hmem
  · intro s now3 hid hge hmem hdue
    unfold checkSchedulesFires
    rw [List.mem_filter]
    refine ⟨?_, ?_⟩
    · unfold getDueSchedules
      rw [List.mem_filter]
      exact ⟨by simpa [snooze] using hmem, hdue⟩
    · have hget : snoozeGet (snooze st sid minutes now).snoozedSchedules s.id =
          some (now + minutes * 60000) := by
        simp [snooze, snoozeSet, snoozeGet, hid]
      unfold snoozeActive
      rw [hget]
      have : ¬ now3 < now + minutes * 60000 := by omega
      simp [this]

/-- Claim C2, witness: snoozing the example due schedule (trigger instant
`1000000`) at `now = 1001000` suppresses the periodic check at `1000500`,
and after the snooze has elapsed the periodic check fires the schedule
again at `1001000` (a zero-minute snooze, so the schedule is still inside
its 30-second due window at that point). -/
theorem snooze_suppresses_periodic_check_witness :
    snoozedDueSchedule ∉
      checkSchedulesFires (snooze ⟨[snoozedDueSchedule], []⟩ "sched1" 0 1001000) 1000500 ∧
    snoozedDueSchedule ∈
      checkSchedulesFires (snooze ⟨[snoozedDueSchedule], []⟩ "sched1" 0 1001000) 1001000 :=
  ⟨(snooze_suppresses_periodic_check ⟨[snoozedDueSchedule], []⟩ "sched1" 0 1001000).2.1
      snoozedDueSchedule 1000500 (by decide) rfl (by decide),
   (snooze_suppresses_periodic_check ⟨[snoozedDueSchedule], []⟩ "sched1" 0 1001000).2.2
      snoozedDueSchedule 1001000 rfl (by decide) (by decide) (by decide)⟩

/-- Claim C3 (amended): `normalize` lowercases, trims the ends, strips every
character outside letters, digits, underscore and whitespace (the JavaScript
`\w∪\s` classes — underscores are kept), and collapses whitespace runs to
single spaces; and for non-empty inputs `match(candidate, query)` holds
exactly when the normalized strings are equal, or one contains the other as
a substring, or the query has at least one word longer than two characters
and at least 70 percent of those words overlap (substring containment in
either direction) with some word of the candidate; empty inputs never
match.  The claim's three examples hold. -/
theorem fuzzyMatch_spec :
    (∀ candidate query : String,
      fuzzyMatch candidate query = true ↔ matchSpec candidate query) ∧
    normalize "Chicken Bowl!" = "chicken bowl" ∧
    fuzzyMatch "Chicken Burrito Bowl" "Chicken Bowl" = true ∧
    fuzzyMatch "Salad" "Burger" = false := by
  refine ⟨?_, rfl, by decide, by decide⟩
  intro c q
  unfold fuzzyMatch matchSpec overlapCount longQueryWords
  cases hc : c.isEmpty with
  | true => simp [hc]
  | false =>
    cases hq : q.isEmpty with
    | true => simp [hc, hq]
    | false =>
      by_cases heq : normalizeL c.data = normalizeL q.data
      · simp [hc, hq, heq]
      · by_cases hs1 : hasSub (normalizeL c.data) (normalizeL q.data) = true
        · simp [hc, hq, heq, hs1]
        · by_cases hs2 : hasSub (normalizeL q.data) (normalizeL c.data) = true
          · simp [hc, hq, heq, hs1, hs2]
          · by_cases hw : 0 <
              ((splitSp (normalizeL q.data)).filter (fun w => decide (2 < w.length))).length
            · have hne : (splitSp (normalizeL q.data)).filter
                  (fun w => decide (2 < w.length)) ≠ [] := by
                intro hnil
                rw [hnil] at hw
                simp at hw
              simp [hc, hq, heq, hs1, hs2, hw, hne]
            · have hnil : (splitSp (normalizeL q.data)).filter
                  (fun w => decide (2 < w.length)) = [] :=
                List.length_eq_zero.mp (by omega)
              simp [hc, hq, heq, hs1, hs2, hw, hnil]

end AutomationFood
